import Mathlib

/-!
Verification of the repetition-scheme selection engine of `streprogen`
(`streprogen/optimization.py`: `RepSchemeGenerator`, `RepSchemeOptimizer`)
and of the default intensity model (`streprogen/modeling.py`:
`reps_to_intensity`).

The Python code is shallowly embedded: Python `int` becomes `Nat` (the
code asserts non-negativity of every quantity involved), Python `float`
becomes `ℚ`, the lazy generator `_generate_sets` becomes an explicitly
fuelled recursive function returning the list of yielded tuples in yield
order, and exceptions become `Except` values.
-/

namespace Streprogen

/-- Configuration of `RepSchemeGenerator.__init__`.  The Python
constructor asserts `reps_slack >= 0`, `max_diff >= 0`, `max_unique >= 1`;
the first two preconditions are captured by using `Nat`. -/
structure RepSchemeGenerator where
  reps_slack : Nat
  max_diff : Nat
  max_unique : Nat
deriving DecidableEq

/-- `list(sorted(set(sets)))` from `RepSchemeGenerator.generate`:
the ascending list of distinct domain values.  `insertionSort` followed by
`dedup` of the sorted list produces exactly the ascending duplicate-free
enumeration. -/
def sorted_unique (sets : List Nat) : List Nat :=
  (List.insertionSort (fun a b => a ≤ b) sets).dedup

/-- One step of the non-decreasing build order of a candidate: the Python
code appends `sets[j]` with `j` at least the index of the previous element
(hence non-decreasing) and only when `sets[j] - stack[-1] <= max_diff`. -/
def SchemeStep (max_diff : Nat) (a b : Nat) : Prop :=
  a ≤ b ∧ (b : Int) - (a : Int) ≤ (max_diff : Int)

instance (max_diff a b : Nat) : Decidable (SchemeStep max_diff a b) := by
  unfold SchemeStep; infer_instance

/-- Embedding of `RepSchemeGenerator._generate_sets`.  The Python function
is a recursive lazy generator; here `fuel` bounds the recursion depth and
the function returns the yielded tuples in yield order.  The body mirrors
the source line by line: first the conditional `yield` of the current
stack, then the pruning `return` once the running sum exceeds
`reps_goal + reps_slack`, then the loop over `j in range(i, len(sets))`
guarded (for a non-empty stack) by `sets[j] - stack[-1] <= max_diff`. -/
def generate_sets (sets : List Nat) (reps_goal reps_slack max_diff : Nat) :
    Nat → Nat → List Nat → List (List Nat)
  | 0, _, _ => []
  | fuel + 1, i, stack =>
    let yielded : List (List Nat) :=
      if stack ≠ [] ∧ ((stack.sum : Int) - (reps_goal : Int)).natAbs ≤ reps_slack
      then [stack] else []
    if reps_goal + reps_slack < stack.sum then yielded
    else
      yielded ++ (List.range' i (sets.length - i)).flatMap (fun j =>
        if stack = [] then
          generate_sets sets reps_goal reps_slack max_diff fuel j (stack ++ [sets.getD j 0])
        else
          if (sets.getD j 0 : Int) - ((stack.getLast?).getD 0 : Int) ≤ (max_diff : Int) then
            generate_sets sets reps_goal reps_slack max_diff fuel j (stack ++ [sets.getD j 0])
          else [])

/-- `RepSchemeGenerator.generate` with an explicit recursion-depth bound:
sort and deduplicate the domain, run the recursive search from an empty
stack, and keep only schemes with at most `max_unique` distinct values. -/
def RepSchemeGenerator.generateFuel (g : RepSchemeGenerator) (fuel : Nat)
    (sets : List Nat) (reps_goal : Nat) : List (List Nat) :=
  (generate_sets (sorted_unique sets) reps_goal g.reps_slack g.max_diff fuel 0 []).filter
    (fun scheme => decide (scheme.dedup.length ≤ g.max_unique))

/-- `RepSchemeGenerator.generate`.  The recursion depth
`reps_goal + reps_slack + 1` is sufficient for any domain of positive
values because the search prunes every stack whose sum exceeds
`reps_goal + reps_slack` and each appended element raises the sum by at
least one; the fuel-independence theorem below makes this precise. -/
def RepSchemeGenerator.generate (g : RepSchemeGenerator)
    (sets : List Nat) (reps_goal : Nat) : List (List Nat) :=
  g.generateFuel (reps_goal + g.reps_slack + 1) sets reps_goal

/-- Embedding of `reps_to_intensity` from `streprogen/modeling.py`
(scalar branch; the broadcasting branch over iterables merely maps the
scalar function).  `0.05`, `97.5` and `-3.5` are exact decimal constants
of the source, represented exactly in `ℚ`. -/
def reps_to_intensity (reps slope constant : ℚ) (quadratic : Bool) : ℚ :=
  let intensity := constant + slope * (reps - 1)
  if quadratic then intensity + (1 / 20) * (reps - 1) ^ 2 else intensity

/-- `reps_to_intensity` at its default parameters
`slope=-3.5`, `constant=97.5`, `quadratic=True`. -/
def reps_to_intensity_default (reps : ℚ) : ℚ :=
  reps_to_intensity reps (-7 / 2) (195 / 2) true

/-- Exception values the optimizer can raise.  `minEmptySequence` is the
`ValueError` Python's builtin `min` raises on an empty iterable (the only
failure path of `RepSchemeOptimizer._optimize`).  `noFeasibleScheme` is
modelled from the spec: the explicit "no feasible scheme" error the spec
asks for; no code path in the source produces it, and it exists here only
so that the two behaviours can be compared. -/
inductive OptError where
  | minEmptySequence : OptError
  | noFeasibleScheme : OptError
deriving DecidableEq

instance : DecidableEq (Except OptError (List Nat)) := fun a b =>
  match a, b with
  | Except.ok x, Except.ok y =>
      if h : x = y then isTrue (by rw [h]) else isFalse (fun hc => h (Except.ok.inj hc))
  | Except.error x, Except.error y =>
      if h : x = y then isTrue (by rw [h]) else isFalse (fun hc => h (Except.error.inj hc))
  | Except.ok _, Except.error _ => isFalse (fun hc => Except.noConfusion hc)
  | Except.error _, Except.ok _ => isFalse (fun hc => Except.noConfusion hc)

/-- Cache key of `RepSchemeOptimizer.__call__`:
the tuple `(sets, intensities, reps_goal, intensity_goal)`. -/
def CacheKey : Type := List Nat × List ℚ × Nat × ℚ

instance : DecidableEq CacheKey := by
  unfold CacheKey; infer_instance

/-- State of a `RepSchemeOptimizer` instance: its generator and its memo
dictionary `_cache` (modelled as an association list whose most recent
entry comes first, matching dictionary lookup semantics). -/
structure RepSchemeOptimizer where
  generator : RepSchemeGenerator
  cache : List (CacheKey × List Nat)

/-- The `reps_to_intensity_dict` built inside `RepSchemeOptimizer._optimize`:
`{r_j: i_j for (r_j, i_j) in zip(sets, intensities)}`, where a duplicated
key keeps the intensity paired with its last occurrence.  A key absent
from the dictionary would raise `KeyError` in Python; the schemes scored
by the optimizer only contain keys present in `sets`, so the `getD 0`
default is never exercised there. -/
def reps_to_intensity_dict (sets : List Nat) (intensities : List ℚ) (reps : Nat) : ℚ :=
  (((sets.zip intensities).reverse).lookup reps).getD 0

/-- The loss function of `RepSchemeOptimizer._optimize`: unweighted
two-norm of the deviation of total reps from `reps_goal` and of the
rep-weighted average intensity from `intensity_goal`. -/
def loss (sets : List Nat) (intensities : List ℚ) (reps_goal : Nat) (intensity_goal : ℚ)
    (scheme : List Nat) : ℚ :=
  let reps : ℚ := (scheme.sum : ℚ)
  let intensity : ℚ :=
    (scheme.map (fun (r : Nat) => (r : ℚ) * reps_to_intensity_dict sets intensities r)).sum / reps
  (reps - (reps_goal : ℚ)) ^ 2 + (intensity - intensity_goal) ^ 2

/-- Python's builtin `min(iterable, key=f)`: the first element attaining
the minimal key, or `none` on an empty iterable. -/
def min_by {α : Type} (f : α → ℚ) : List α → Option α
  | [] => none
  | x :: xs => some (xs.foldl (fun best c => if f c < f best then c else best) x)

/-- `RepSchemeOptimizer._optimize`: score every generated scheme with the
loss, take the minimum, and return it reversed (descending). -/
def RepSchemeOptimizer.optimize (o : RepSchemeOptimizer) (sets : List Nat)
    (intensities : List ℚ) (reps_goal : Nat) (intensity_goal : ℚ) :
    Except OptError (List Nat) :=
  match min_by (loss sets intensities reps_goal intensity_goal)
      (o.generator.generate sets reps_goal) with
  | none => Except.error OptError.minEmptySequence
  | some best => Except.ok best.reverse

/-- Dictionary lookup in the memo cache. -/
def cache_lookup (cache : List (CacheKey × List Nat)) (args : CacheKey) :
    Option (List Nat) :=
  (cache.find? (fun p => decide (p.1 = args))).map Prod.snd

/-- `RepSchemeOptimizer.__call__`: try the cache; on a miss run
`_optimize`, store the result under the key and return it.  A raised
exception (modelled as `Except.error`) propagates without touching the
cache, exactly as in Python where the failing `_optimize` call aborts the
assignment into `_cache`. -/
def RepSchemeOptimizer.call (o : RepSchemeOptimizer) (sets : List Nat)
    (intensities : List ℚ) (reps_goal : Nat) (intensity_goal : ℚ) :
    Except OptError (List Nat) × RepSchemeOptimizer :=
  match cache_lookup o.cache (sets, intensities, reps_goal, intensity_goal) with
  | some r => (Except.ok r, o)
  | none =>
    match o.optimize sets intensities reps_goal intensity_goal with
    | Except.ok r =>
        (Except.ok r,
         { o with cache := ((sets, intensities, reps_goal, intensity_goal), r) :: o.cache })
    | Except.error e => (Except.error e, o)

/-- A cache is well formed when every stored entry is the `_optimize`
result for its key; this invariant holds for the freshly constructed
optimizer (empty cache) and is preserved by `call`. -/
def RepSchemeOptimizer.cacheWF (o : RepSchemeOptimizer) : Prop :=
  ∀ p ∈ o.cache, o.optimize p.1.1 p.1.2.1 p.1.2.2.1 p.1.2.2.2 = Except.ok p.2

/-- `RepSchemeOptimizer()` with the default generator
`RepSchemeGenerator()` = `(reps_slack=3, max_diff=1, max_unique=3)` and an
empty cache. -/
def new_optimizer : RepSchemeOptimizer :=
  ⟨⟨3, 1, 3⟩, []⟩

/-- A `RepSchemeGenerator` instance together with the attributes
`self.sets` and `self.reps_goal` that `generate` stores on the instance
("Store parameters in instance to avoid passing to _generate_sets()");
they are `none` until the first `generate` call. -/
structure GenInstance where
  reps_slack : Nat
  max_diff : Nat
  max_unique : Nat
  sets : Option (List Nat)
  reps_goal : Option Nat
deriving DecidableEq

/-- The fixed configuration part of a generator instance. -/
def GenInstance.config (g : GenInstance) : RepSchemeGenerator :=
  ⟨g.reps_slack, g.max_diff, g.max_unique⟩

/-- `RepSchemeGenerator.generate` as a state transformer on the instance:
it overwrites `self.sets` with `list(sorted(set(sets)))` and
`self.reps_goal` with the goal, and (when the yielded sequence is consumed
before any further call) produces the candidates computed from the fixed
configuration and the arguments. -/
def GenInstance.generateS (g : GenInstance) (sets : List Nat) (reps_goal : Nat) :
    List (List Nat) × GenInstance :=
  (g.config.generate sets reps_goal,
   { g with sets := some (sorted_unique sets), reps_goal := some reps_goal })

/-! ### Properties of the sorted duplicate-free domain -/

theorem sorted_unique_sorted (sets : List Nat) :
    (sorted_unique sets).Sorted (fun a b => a ≤ b) :=
  List.Pairwise.sublist (List.dedup_sublist _)
    (List.sorted_insertionSort (fun a b => a ≤ b) sets)

theorem mem_sorted_unique {sets : List Nat} {x : Nat} :
    x ∈ sorted_unique sets ↔ x ∈ sets := by
  unfold sorted_unique
  rw [List.mem_dedup]
  exact (List.perm_insertionSort (fun a b => a ≤ b) sets).mem_iff

theorem getD_le_getD_of_sorted {l : List Nat} (h : l.Sorted (fun a b => a ≤ b))
    {a b : Nat} (hab : a ≤ b) (hb : b < l.length) : l.getD a 0 ≤ l.getD b 0 := by
  have ha : a < l.length := lt_of_le_of_lt hab hb
  rw [List.getD_eq_get l 0 ha, List.getD_eq_get l 0 hb]
  rcases lt_or_eq_of_le hab with hlt | heq
  · exact (List.pairwise_iff_get.mp h) ⟨a, ha⟩ ⟨b, hb⟩ hlt
  · subst heq; rfl

theorem getD_mem_of_lt {l : List Nat} {j : Nat} (hj : j < l.length) :
    l.getD j 0 ∈ l := by
  rw [List.getD_eq_get l 0 hj]
  exact List.get_mem l j hj

/-! ### Invariants of the recursive search -/

theorem mem_generate_sets {sets : List Nat} {reps_goal reps_slack max_diff : Nat}
    (hsorted : sets.Sorted (fun a b => a ≤ b)) :
    ∀ (fuel i : Nat) (stack : List Nat),
      stack.Chain' (SchemeStep max_diff) →
      (∀ j, i ≤ j → j < sets.length → ∀ last, stack.getLast? = some last →
        last ≤ sets.getD j 0) →
      (∀ x ∈ stack, x ∈ sets) →
      ∀ c ∈ generate_sets sets reps_goal reps_slack max_diff fuel i stack,
        c ≠ [] ∧ ((c.sum : Int) - (reps_goal : Int)).natAbs ≤ reps_slack ∧
        c.Chain' (SchemeStep max_diff) ∧ ∀ x ∈ c, x ∈ sets := by
  intro fuel
  induction fuel with
  | zero =>
    intro i stack _ _ _ c hc
    simp [generate_sets] at hc
  | succ fuel ih =>
    intro i stack hchain hinv helem c hc
    rw [generate_sets] at hc
    have yield_case :
        c ∈ (if stack ≠ [] ∧ ((stack.sum : Int) - (reps_goal : Int)).natAbs ≤ reps_slack
              then [stack] else []) →
        c ≠ [] ∧ ((c.sum : Int) - (reps_goal : Int)).natAbs ≤ reps_slack ∧
        c.Chain' (SchemeStep max_diff) ∧ ∀ x ∈ c, x ∈ sets := by
      intro hy
      by_cases hcond : stack ≠ [] ∧ ((stack.sum : Int) - (reps_goal : Int)).natAbs ≤ reps_slack
      · rw [if_pos hcond] at hy
        have hcs : c = stack := List.mem_singleton.mp hy
        subst hcs
        exact ⟨hcond.1, hcond.2, hchain, helem⟩
      · rw [if_neg hcond] at hy
        exact absurd hy (List.not_mem_nil c)
    by_cases hprune : reps_goal + reps_slack < stack.sum
    · rw [if_pos hprune] at hc
      exact yield_case hc
    · rw [if_neg hprune] at hc
      rcases List.mem_append.mp hc with hy | hrec
      · exact yield_case hy
      · rcases List.mem_flatMap.mp hrec with ⟨j, hj, hcj⟩
        have hji : i ≤ j ∧ j < i + (sets.length - i) := List.mem_range'_1.mp hj
        have hjlen : j < sets.length := by omega
        -- invariants for the extended stack
        have hchain' : (stack ++ [sets.getD j 0]).Chain' (SchemeStep max_diff) →
            True := fun _ => trivial
        have hlastinv : ∀ j', j ≤ j' → j' < sets.length → ∀ last,
            (stack ++ [sets.getD j 0]).getLast? = some last → last ≤ sets.getD j' 0 := by
          intro j' hjj' hj'len last hlast
          rw [List.getLast?_concat] at hlast
          have : last = sets.getD j 0 := by injection hlast; omega
          subst this
          exact getD_le_getD_of_sorted hsorted hjj' hj'len
        have helem' : ∀ x ∈ stack ++ [sets.getD j 0], x ∈ sets := by
          intro x hx
          rcases List.mem_append.mp hx with hx | hx
          · exact helem x hx
          · rw [List.mem_singleton.mp hx]
            exact getD_mem_of_lt hjlen
        by_cases hstk : stack = []
        · rw [if_pos hstk] at hcj
          have hch : (stack ++ [sets.getD j 0]).Chain' (SchemeStep max_diff) := by
            subst hstk; simp [List.chain'_singleton]
          exact ih j (stack ++ [sets.getD j 0]) hch hlastinv helem' c hcj
        · rw [if_neg hstk] at hcj
          by_cases hdiff : (sets.getD j 0 : Int) - ((stack.getLast?).getD 0 : Int) ≤ (max_diff : Int)
          · rw [if_pos hdiff] at hcj
            have hlast_eq : stack.getLast? = some (stack.getLast hstk) :=
              List.getLast?_eq_getLast_of_ne_nil hstk
            have hle : stack.getLast hstk ≤ sets.getD j 0 :=
              hinv j hji.1 hjlen (stack.getLast hstk) hlast_eq
            have hstep : SchemeStep max_diff (stack.getLast hstk) (sets.getD j 0) := by
              refine ⟨hle, ?_⟩
              rw [hlast_eq] at hdiff
              simpa using hdiff
            have hch : (stack ++ [sets.getD j 0]).Chain' (SchemeStep max_diff) := by
              rw [List.chain'_append]
              refine ⟨hchain, List.chain'_singleton _, ?_⟩
              intro x hx y hy
              rw [hlast_eq] at hx
              have hxeq : x = stack.getLast hstk :=
                (Option.some.inj (Option.mem_def.mp hx)).symm
              have hyeq : y = sets.getD j 0 :=
                (Option.some.inj (Option.mem_def.mp hy)).symm
              rw [hxeq, hyeq]
              exact hstep
            exact ih j (stack ++ [sets.getD j 0]) hch hlastinv helem' c hcj
          · rw [if_neg hdiff] at hcj
            exact absurd hcj (List.not_mem_nil c)

/-- Every candidate yielded by `generate` is non-empty, lands within
`reps_slack` of the goal, is non-decreasing with consecutive differences
at most `max_diff`, draws its elements from the domain, and has at most
`max_unique` distinct values. -/
theorem generate_mem_props (g : RepSchemeGenerator) (sets : List Nat) (reps_goal : Nat)
    {c : List Nat} (hc : c ∈ g.generate sets reps_goal) :
    c ≠ [] ∧ ((c.sum : Int) - (reps_goal : Int)).natAbs ≤ g.reps_slack ∧
    c.Chain' (SchemeStep g.max_diff) ∧ (∀ x ∈ c, x ∈ sets) ∧
    c.dedup.length ≤ g.max_unique := by
  unfold RepSchemeGenerator.generate RepSchemeGenerator.generateFuel at hc
  have hmem := List.mem_filter.mp hc
  have hprops := mem_generate_sets (sorted_unique_sorted sets)
    (reps_goal + g.reps_slack + 1) 0 [] List.chain'_nil
    (by intro j _ _ last hlast; simp at hlast)
    (by intro x hx; simp at hx)
    c hmem.1
  refine ⟨hprops.1, hprops.2.1, hprops.2.2.1, ?_, ?_⟩
  · intro x hx
    exact mem_sorted_unique.mp (hprops.2.2.2 x hx)
  · exact of_decide_eq_true hmem.2

/-! ### Fuel independence: the pruning bounds the recursion depth -/

theorem generate_sets_fuel_succ {sets : List Nat} {reps_goal reps_slack max_diff : Nat}
    (hpos : ∀ x ∈ sets, 0 < x) :
    ∀ (fuel i : Nat) (stack : List Nat),
      reps_goal + reps_slack + 1 ≤ fuel + stack.sum →
      generate_sets sets reps_goal reps_slack max_diff (fuel + 1) i stack =
      generate_sets sets reps_goal reps_slack max_diff fuel i stack := by
  intro fuel
  induction fuel with
  | zero =>
    intro i stack hbound
    have hsum : reps_goal + reps_slack < stack.sum := by omega
    have hyield : ¬ (stack ≠ [] ∧ ((stack.sum : Int) - (reps_goal : Int)).natAbs ≤ reps_slack) := by
      rintro ⟨-, habs⟩
      omega
    rw [generate_sets, generate_sets, if_neg hyield, if_pos hsum]
  | succ fuel ih =>
    intro i stack hbound
    rw [generate_sets]
    conv_rhs => rw [generate_sets]
    by_cases hprune : reps_goal + reps_slack < stack.sum
    · rw [if_pos hprune, if_pos hprune]
    · rw [if_neg hprune, if_neg hprune]
      congr 1
      apply List.flatMap_congr
      intro j hj
      have hji : i ≤ j ∧ j < i + (sets.length - i) := List.mem_range'_1.mp hj
      have hjlen : j < sets.length := by omega
      have hvpos : 0 < sets.getD j 0 := hpos _ (getD_mem_of_lt hjlen)
      have hsum' : (stack ++ [sets.getD j 0]).sum = stack.sum + sets.getD j 0 := by
        rw [List.sum_append]; simp
      have hbound' : reps_goal + reps_slack + 1 ≤ fuel + (stack ++ [sets.getD j 0]).sum := by
        rw [hsum']; omega
      by_cases hstk : stack = []
      · rw [if_pos hstk, if_pos hstk]
        exact ih j (stack ++ [sets.getD j 0]) hbound'
      · rw [if_neg hstk, if_neg hstk]
        by_cases hdiff : (sets.getD j 0 : Int) - ((stack.getLast?).getD 0 : Int) ≤ (max_diff : Int)
        · rw [if_pos hdiff, if_pos hdiff]
          exact ih j (stack ++ [sets.getD j 0]) hbound'
        · rw [if_neg hdiff, if_neg hdiff]

theorem generate_sets_fuel_add {sets : List Nat} {reps_goal reps_slack max_diff : Nat}
    (hpos : ∀ x ∈ sets, 0 < x) :
    ∀ (k fuel i : Nat) (stack : List Nat),
      reps_goal + reps_slack + 1 ≤ fuel + stack.sum →
      generate_sets sets reps_goal reps_slack max_diff (fuel + k) i stack =
      generate_sets sets reps_goal reps_slack max_diff fuel i stack := by
  intro k
  induction k with
  | zero => intro fuel i stack _; rfl
  | succ k ih =>
    intro fuel i stack hbound
    have h1 : fuel + (k + 1) = (fuel + k) + 1 := by omega
    rw [h1, generate_sets_fuel_succ hpos (fuel + k) i stack (by omega)]
    exact ih fuel i stack hbound

theorem generate_sets_fuel_stable {sets : List Nat} {reps_goal reps_slack max_diff : Nat}
    (hpos : ∀ x ∈ sets, 0 < x) (fuel₁ fuel₂ i : Nat) (stack : List Nat)
    (h₁ : reps_goal + reps_slack + 1 ≤ fuel₁ + stack.sum)
    (h₂ : reps_goal + reps_slack + 1 ≤ fuel₂ + stack.sum) :
    generate_sets sets reps_goal reps_slack max_diff fuel₁ i stack =
    generate_sets sets reps_goal reps_slack max_diff fuel₂ i stack := by
  set m : Nat := reps_goal + reps_slack + 1 - stack.sum with hm
  have hbm : reps_goal + reps_slack + 1 ≤ m + stack.sum := by omega
  have e₁ : fuel₁ = m + (fuel₁ - m) := by omega
  have e₂ : fuel₂ = m + (fuel₂ - m) := by omega
  rw [e₁, e₂, generate_sets_fuel_add hpos (fuel₁ - m) m i stack hbm,
    generate_sets_fuel_add hpos (fuel₂ - m) m i stack hbm]

/-! ### Claims about the generator -/

/-- C1: for every valid generator configuration and domain of positive
values, every candidate yielded by `RepSchemeGenerator.generate` satisfies
the three hard constraints: the absolute difference between its sum and
`reps_goal` is at most `reps_slack`; its elements are non-decreasing with
consecutive differences at most `max_diff`; and it has at most
`max_unique` distinct values. -/
theorem C1_generate_hard_constraints (g : RepSchemeGenerator) (sets : List Nat)
    (reps_goal : Nat) (hpos : ∀ x ∈ sets, 0 < x) (hmu : 1 ≤ g.max_unique)
    (c : List Nat) (hc : c ∈ g.generate sets reps_goal) :
    ((c.sum : Int) - (reps_goal : Int)).natAbs ≤ g.reps_slack ∧
    c.Chain' (SchemeStep g.max_diff) ∧
    c.dedup.length ≤ g.max_unique := by
  have h := generate_mem_props g sets reps_goal hc
  exact ⟨h.2.1, h.2.2.1, h.2.2.2.2⟩

/-- Witness for C1 at the doctest configuration `reps_slack=0`,
`max_diff=2`, domain `[2,3,4]`, goal 6 and the yielded candidate `(2,4)`. -/
theorem C1_witness :
    (((([2, 4] : List Nat).sum : Int) - ((6 : Nat) : Int)).natAbs ≤
      (RepSchemeGenerator.mk 0 2 3).reps_slack) ∧
    ([2, 4] : List Nat).Chain' (SchemeStep (RepSchemeGenerator.mk 0 2 3).max_diff) ∧
    ([2, 4] : List Nat).dedup.length ≤ (RepSchemeGenerator.mk 0 2 3).max_unique :=
  C1_generate_hard_constraints (RepSchemeGenerator.mk 0 2 3) [2, 3, 4] 6
    (by decide) (by decide) [2, 4] (by decide)

/-- C4: the three doctest runs of `RepSchemeGenerator.generate` produce
exactly the documented candidate sets (here verified in the exact doctest
order, which implies the set equality asserted by the claim). -/
theorem C4_doctest_enumerations :
    RepSchemeGenerator.generate ⟨0, 2, 3⟩ [2, 3, 4] 6 = [[2, 2, 2], [2, 4], [3, 3]] ∧
    RepSchemeGenerator.generate ⟨1, 2, 3⟩ [2, 3, 4] 6 =
      [[2, 2, 2], [2, 2, 3], [2, 3], [2, 4], [3, 3], [3, 4]] ∧
    RepSchemeGenerator.generate ⟨0, 1, 1⟩ [2, 3, 4] 8 = [[2, 2, 2, 2], [4, 4]] := by
  refine ⟨by decide, by decide, by decide⟩

/-- C5: for every finite domain of positive values the search terminates:
the recursion depth is bounded by `reps_goal + reps_slack + 1` thanks to
the pruning of partial sequences whose sum exceeds
`reps_goal + reps_slack`, so granting the search any deeper recursion
budget yields exactly the same finite candidate list. -/
theorem C5_terminates_by_pruning (g : RepSchemeGenerator) (sets : List Nat)
    (reps_goal : Nat) (hpos : ∀ x ∈ sets, 0 < x) (fuel : Nat)
    (hfuel : reps_goal + g.reps_slack + 1 ≤ fuel) :
    g.generateFuel fuel sets reps_goal = g.generate sets reps_goal := by
  unfold RepSchemeGenerator.generate RepSchemeGenerator.generateFuel
  congr 1
  have hpos' : ∀ x ∈ sorted_unique sets, 0 < x := by
    intro x hx
    exact hpos x (mem_sorted_unique.mp hx)
  exact generate_sets_fuel_stable hpos' fuel (reps_goal + g.reps_slack + 1) 0 []
    (by simp; omega) (by simp)

/-- Witness for C5: depth 25 and the canonical depth 10 agree on the
default configuration, domain `[2,3,4]`, goal 6. -/
theorem C5_witness :
    (RepSchemeGenerator.mk 3 1 3).generateFuel 25 [2, 3, 4] 6 =
    (RepSchemeGenerator.mk 3 1 3).generate [2, 3, 4] 6 :=
  C5_terminates_by_pruning (RepSchemeGenerator.mk 3 1 3) [2, 3, 4] 6
    (by decide) 25 (by decide)

/-- C8 as stated is false: with the default configuration
(`reps_slack=3`) and domain `[2]`, `generate` with `reps_goal = 0` yields
the candidate `(2,)`, because the singleton stack `[2]` already lies
within `reps_slack` of the goal 0. -/
theorem C8_counterexample :
    RepSchemeGenerator.generate ⟨3, 1, 3⟩ [2] 0 ≠ [] := by
  decide

/-- C8 amended: `generate` with `reps_goal = 0` yields no candidates
precisely when no domain value fits in the slack, i.e. whenever every
domain value exceeds `reps_slack` (the unamended claim fails as soon as
some domain value is at most `reps_slack`). -/
theorem C8_amended_goal_zero (g : RepSchemeGenerator) (sets : List Nat)
    (hne : sets ≠ []) (hpos : ∀ x ∈ sets, 0 < x)
    (hslack : ∀ x ∈ sets, g.reps_slack < x) :
    g.generate sets 0 = [] := by
  rw [List.eq_nil_iff_forall_not_mem]
  intro c hc
  have h := generate_mem_props g sets 0 hc
  rcases h with ⟨hne', habs, -, helem, -⟩
  rcases List.exists_mem_of_ne_nil c hne' with ⟨x, hx⟩
  have hxs : x ∈ sets := helem x hx
  have hxsum : x ≤ c.sum := List.single_le_sum (by intro y _; omega) x hx
  have : c.sum ≤ g.reps_slack := by omega
  exact absurd (hslack x hxs) (by omega)

/-- Witness for C8 (amended): slack 1, domain `[2,3]`, goal 0 yields
nothing. -/
theorem C8_witness :
    RepSchemeGenerator.generate ⟨1, 1, 3⟩ [2, 3] 0 = [] :=
  C8_amended_goal_zero (RepSchemeGenerator.mk 1 1 3) [2, 3]
    (by decide) (by decide) (by decide)

/-! ### Properties of the selection step -/

theorem foldl_min_mem {α : Type} (f : α → ℚ) :
    ∀ (xs : List α) (x : α),
      xs.foldl (fun best c => if f c < f best then c else best) x ∈ x :: xs := by
  intro xs
  induction xs with
  | nil => intro x; simp [List.foldl]
  | cons y ys ih =>
    intro x
    rw [List.foldl_cons]
    have h := ih (if f y < f x then y else x)
    rcases List.mem_cons.mp h with h1 | h1
    · rw [h1]
      by_cases hc : f y < f x
      · rw [if_pos hc]
        exact List.mem_cons_of_mem x (List.mem_cons_self y ys)
      · rw [if_neg hc]
        exact List.mem_cons_self x (y :: ys)
    · exact List.mem_cons_of_mem x (List.mem_cons_of_mem y h1)

theorem foldl_min_le {α : Type} (f : α → ℚ) :
    ∀ (xs : List α) (x : α),
      f (xs.foldl (fun best c => if f c < f best then c else best) x) ≤ f x ∧
      ∀ y ∈ xs, f (xs.foldl (fun best c => if f c < f best then c else best) x) ≤ f y := by
  intro xs
  induction xs with
  | nil => intro x; exact ⟨le_refl _, by intro y hy; simp at hy⟩
  | cons y ys ih =>
    intro x
    rw [List.foldl_cons]
    have h := ih (if f y < f x then y else x)
    have hx' : f (if f y < f x then y else x) ≤ f x := by
      by_cases hc : f y < f x
      · rw [if_pos hc]; exact le_of_lt hc
      · rw [if_neg hc]
    have hy' : f (if f y < f x then y else x) ≤ f y := by
      by_cases hc : f y < f x
      · rw [if_pos hc]
      · rw [if_neg hc]; exact le_of_not_lt hc
    refine ⟨le_trans h.1 hx', ?_⟩
    intro z hz
    rcases List.mem_cons.mp hz with hz1 | hz1
    · rw [hz1]; exact le_trans h.1 hy'
    · exact h.2 z hz1

theorem min_by_mem {α : Type} (f : α → ℚ) {l : List α} {m : α}
    (h : min_by f l = some m) : m ∈ l := by
  cases l with
  | nil => simp [min_by] at h
  | cons x xs =>
    unfold min_by at h
    have hm := Option.some.inj h
    rw [← hm]
    exact foldl_min_mem f xs x

theorem min_by_le {α : Type} (f : α → ℚ) {l : List α} {m : α}
    (h : min_by f l = some m) : ∀ x ∈ l, f m ≤ f x := by
  cases l with
  | nil => simp [min_by] at h
  | cons x xs =>
    unfold min_by at h
    have hm := Option.some.inj h
    rw [← hm]
    intro z hz
    rcases List.mem_cons.mp hz with hz1 | hz1
    · rw [hz1]; exact (foldl_min_le f xs x).1
    · exact (foldl_min_le f xs x).2 z hz1

/-- The loss is invariant under reversing a scheme: total reps and the
rep-weighted intensity sum are order-independent. -/
theorem loss_reverse (sets : List Nat) (intensities : List ℚ) (reps_goal : Nat)
    (intensity_goal : ℚ) (scheme : List Nat) :
    loss sets intensities reps_goal intensity_goal scheme.reverse =
    loss sets intensities reps_goal intensity_goal scheme := by
  unfold loss
  rw [List.map_reverse, List.sum_reverse, List.sum_reverse]

/-- A successful `_optimize` run exposes its minimizing candidate. -/
theorem optimize_ok_spec (o : RepSchemeOptimizer) (sets : List Nat)
    (intensities : List ℚ) (reps_goal : Nat) (intensity_goal : ℚ) (res : List Nat)
    (h : o.optimize sets intensities reps_goal intensity_goal = Except.ok res) :
    ∃ best, min_by (loss sets intensities reps_goal intensity_goal)
        (o.generator.generate sets reps_goal) = some best ∧ res = best.reverse := by
  unfold RepSchemeOptimizer.optimize at h
  rcases hmin : min_by (loss sets intensities reps_goal intensity_goal)
      (o.generator.generate sets reps_goal) with - | best
  · rw [hmin] at h
    exact absurd h (by simp)
  · rw [hmin] at h
    exact ⟨best, rfl, (Except.ok.inj h).symm⟩

/-- On a well-formed cache, every value `__call__` returns is an
`_optimize` result for its arguments. -/
theorem call_ok (o : RepSchemeOptimizer) (hwf : o.cacheWF) (sets : List Nat)
    (intensities : List ℚ) (reps_goal : Nat) (intensity_goal : ℚ) (r : List Nat)
    (h : (o.call sets intensities reps_goal intensity_goal).1 = Except.ok r) :
    o.optimize sets intensities reps_goal intensity_goal = Except.ok r := by
  unfold RepSchemeOptimizer.call at h
  rcases hlk : cache_lookup o.cache (sets, intensities, reps_goal, intensity_goal)
      with - | r₀
  · rw [hlk] at h
    rcases hop : o.optimize sets intensities reps_goal intensity_goal with e | v
    · rw [hop] at h
      simp at h
    · rw [hop] at h
      exact h
  · rw [hlk] at h
    simp at h
    unfold cache_lookup at hlk
    rcases hfd : o.cache.find?
        (fun p => decide (p.1 = (sets, intensities, reps_goal, intensity_goal)))
        with - | p
    · rw [hfd] at hlk; simp at hlk
    · rw [hfd] at hlk
      simp at hlk
      have hp := List.find?_some hfd
      have hpmem := List.mem_of_find?_eq_some hfd
      have hpeq : p.1 = (sets, intensities, reps_goal, intensity_goal) :=
        of_decide_eq_true hp
      have := hwf p hpmem
      have h1 : p.1.1 = sets := by rw [hpeq]
      have h2 : p.1.2.1 = intensities := by rw [hpeq]
      have h3 : p.1.2.2.1 = reps_goal := by rw [hpeq]
      have h4 : p.1.2.2.2 = intensity_goal := by rw [hpeq]
      rw [h1, h2, h3, h4] at this
      rw [this, hlk, h]

/-! ### Claims about the optimizer -/

/-- C2: for every valid input (strictly ascending domain, matching
intensity tuple, positive reps goal, intensity goal above 1) on which
`RepSchemeOptimizer.__call__` returns a candidate, the returned candidate
minimizes the unweighted two-norm loss over all candidates yielded by the
generator for `(domain, reps_goal)`. -/
theorem C2_call_minimizes_loss (o : RepSchemeOptimizer) (hwf : o.cacheWF)
    (sets : List Nat) (intensities : List ℚ) (reps_goal : Nat) (intensity_goal : ℚ)
    (hsorted : sets.Sorted (fun a b => a < b)) (hlen : sets.length = intensities.length)
    (hrg : 0 < reps_goal) (hig : 1 < intensity_goal) (res : List Nat)
    (hres : (o.call sets intensities reps_goal intensity_goal).1 = Except.ok res) :
    ∀ c ∈ o.generator.generate sets reps_goal,
      loss sets intensities reps_goal intensity_goal res ≤
      loss sets intensities reps_goal intensity_goal c := by
  have hop := call_ok o hwf sets intensities reps_goal intensity_goal res hres
  rcases optimize_ok_spec o sets intensities reps_goal intensity_goal res hop
    with ⟨best, hmin, hrev⟩
  intro c hc
  rw [hrev, loss_reverse]
  exact min_by_le _ hmin c hc

/-- C3: for every input on which `RepSchemeOptimizer.__call__` returns a
candidate (under a well-formed cache), the returned candidate is sorted in
descending order, and it is the reversal of a non-decreasing candidate
yielded by the generator. -/
theorem C3_call_returns_descending (o : RepSchemeOptimizer) (hwf : o.cacheWF)
    (sets : List Nat) (intensities : List ℚ) (reps_goal : Nat) (intensity_goal : ℚ)
    (res : List Nat)
    (hres : (o.call sets intensities reps_goal intensity_goal).1 = Except.ok res) :
    res.Chain' (fun a b => b ≤ a) ∧
    ∃ c, c ∈ o.generator.generate sets reps_goal ∧
      c.Chain' (fun a b => a ≤ b) ∧ res = c.reverse := by
  have hop := call_ok o hwf sets intensities reps_goal intensity_goal res hres
  rcases optimize_ok_spec o sets intensities reps_goal intensity_goal res hop
    with ⟨best, hmin, hrev⟩
  have hbest : best ∈ o.generator.generate sets reps_goal := min_by_mem _ hmin
  have hprops := generate_mem_props o.generator sets reps_goal hbest
  have hchain : best.Chain' (fun a b => a ≤ b) :=
    List.Chain'.imp (fun a b hab => hab.1) hprops.2.2.1
  refine ⟨?_, best, hbest, hchain, hrev⟩
  rw [hrev]
  rw [List.chain'_reverse]
  exact List.Chain'.imp (fun a b hab => hab) hchain

/-- C6: `RepSchemeOptimizer.__call__` is idempotent and deterministic:
when a call returns a candidate, an immediately repeated call with the
same arguments returns the same candidate, leaves the optimizer state
untouched, and is answered from the memo cache (the key is present and
bound to the returned candidate). -/
theorem C6_call_idempotent (o : RepSchemeOptimizer) (sets : List Nat)
    (intensities : List ℚ) (reps_goal : Nat) (intensity_goal : ℚ)
    (hsorted : sets.Sorted (fun a b => a ≤ b)) (hrg : 0 < reps_goal)
    (hig : 1 < intensity_goal) (hints : ∀ x ∈ intensities, 1 < x) (r : List Nat)
    (h : (o.call sets intensities reps_goal intensity_goal).1 = Except.ok r) :
    ((o.call sets intensities reps_goal intensity_goal).2.call
        sets intensities reps_goal intensity_goal).1 = Except.ok r ∧
    ((o.call sets intensities reps_goal intensity_goal).2.call
        sets intensities reps_goal intensity_goal).2 =
      (o.call sets intensities reps_goal intensity_goal).2 ∧
    cache_lookup (o.call sets intensities reps_goal intensity_goal).2.cache
      (sets, intensities, reps_goal, intensity_goal) = some r := by
  have key : ∃ o' : RepSchemeOptimizer,
      o.call sets intensities reps_goal intensity_goal = (Except.ok r, o') ∧
      cache_lookup o'.cache (sets, intensities, reps_goal, intensity_goal) = some r := by
    rcases hlk : cache_lookup o.cache (sets, intensities, reps_goal, intensity_goal)
        with - | r₀
    · rcases hop : o.optimize sets intensities reps_goal intensity_goal with e | v
      · have hcall : (o.call sets intensities reps_goal intensity_goal).1 =
            Except.error e := by
          unfold RepSchemeOptimizer.call
          rw [hlk, hop]
        rw [hcall] at h
        exact absurd h (by simp)
      · have hcall : o.call sets intensities reps_goal intensity_goal =
            (Except.ok v,
             { o with cache :=
                ((sets, intensities, reps_goal, intensity_goal), v) :: o.cache }) := by
          unfold RepSchemeOptimizer.call
          rw [hlk, hop]
        have hvr : v = r := by
          rw [hcall] at h
          exact Except.ok.inj h
        subst hvr
        refine ⟨_, hcall, ?_⟩
        unfold cache_lookup
        rw [List.find?_cons_of_pos _ (by simp)]
        rfl
    · have hcall : o.call sets intensities reps_goal intensity_goal =
          (Except.ok r₀, o) := by
        unfold RepSchemeOptimizer.call
        rw [hlk]
      have hr : r₀ = r := by
        rw [hcall] at h
        exact Except.ok.inj h
      subst hr
      exact ⟨o, hcall, hlk⟩
  rcases key with ⟨o', hcall, hhit⟩
  rw [hcall]
  have hsecond : o'.call sets intensities reps_goal intensity_goal =
      (Except.ok r, o') := by
    unfold RepSchemeOptimizer.call
    rw [hhit]
  rw [hsecond]
  exact ⟨rfl, rfl, hhit⟩

/-- C7 as stated is false: on an infeasible input (default configuration,
domain `(5,)`, `reps_goal=1`: the singleton candidate `(5,)` misses the
goal by 4 > `reps_slack`=3) the call fails with Python's generic
`ValueError` raised by `min()` on an empty sequence, not with an explicit
"no feasible scheme" error. -/
theorem C7_counterexample :
    (new_optimizer.call [5] [80] 1 80).1 = Except.error OptError.minEmptySequence ∧
    (new_optimizer.call [5] [80] 1 80).1 ≠ Except.error OptError.noFeasibleScheme := by
  constructor
  · rfl
  · intro hcontra
    have h1 : (new_optimizer.call [5] [80] 1 80).1 = Except.error OptError.minEmptySequence := rfl
    rw [h1] at hcontra
    exact absurd (Except.error.inj hcontra) (by decide)

/-- C7 amended: when the generator yields no candidates, `__call__` (with
a well-formed cache) does fail rather than returning an empty or partial
result, but the raised error is the generic `ValueError` of Python's
`min()` on an empty sequence, not an explicit "no feasible scheme"
error. -/
theorem C7_amended_infeasible_raises (o : RepSchemeOptimizer) (hwf : o.cacheWF)
    (sets : List Nat) (intensities : List ℚ) (reps_goal : Nat) (intensity_goal : ℚ)
    (hempty : o.generator.generate sets reps_goal = []) :
    (o.call sets intensities reps_goal intensity_goal).1 =
      Except.error OptError.minEmptySequence := by
  have hop : o.optimize sets intensities reps_goal intensity_goal =
      Except.error OptError.minEmptySequence := by
    unfold RepSchemeOptimizer.optimize
    rw [hempty]
    rfl
  unfold RepSchemeOptimizer.call
  rcases hlk : cache_lookup o.cache (sets, intensities, reps_goal, intensity_goal)
      with - | r₀
  · rw [hop]
  · exfalso
    unfold cache_lookup at hlk
    rcases hfd : o.cache.find?
        (fun p => decide (p.1 = (sets, intensities, reps_goal, intensity_goal)))
        with - | p
    · rw [hfd] at hlk; simp at hlk
    · rw [hfd] at hlk
      have hp := List.find?_some hfd
      have hpmem := List.mem_of_find?_eq_some hfd
      have hpeq : p.1 = (sets, intensities, reps_goal, intensity_goal) :=
        of_decide_eq_true hp
      have hthis := hwf p hpmem
      have h1 : p.1.1 = sets := by rw [hpeq]
      have h2 : p.1.2.1 = intensities := by rw [hpeq]
      have h3 : p.1.2.2.1 = reps_goal := by rw [hpeq]
      have h4 : p.1.2.2.2 = intensity_goal := by rw [hpeq]
      rw [h1, h2, h3, h4] at hthis
      rw [hop] at hthis
      exact Except.noConfusion hthis

/-- Witness for C7 (amended): the infeasible concrete input above
produces exactly the `min()`-on-empty error. -/
theorem C7_witness :
    (new_optimizer.call [8] [75] 2 75).1 = Except.error OptError.minEmptySequence :=
  C7_amended_infeasible_raises new_optimizer
    (by intro p hp; exact absurd hp (List.not_mem_nil p))
    [8] [75] 2 75 (by decide)

/-! ### A fully evaluated concrete optimizer run (domain `[3]`, goal 6,
intensity table `3 ↦ 85`, intensity goal 85): the generator yields
`[3]`, `[3,3]`, `[3,3,3]` with losses 9, 0, 9, so the selection is
`[3,3]`. -/

theorem loss_eval_3 : loss [3] [85] 6 85 [3] = 9 := by
  norm_num [loss, reps_to_intensity_dict, List.lookup]

theorem loss_eval_33 : loss [3] [85] 6 85 [3, 3] = 0 := by
  norm_num [loss, reps_to_intensity_dict, List.lookup]

theorem loss_eval_333 : loss [3] [85] 6 85 [3, 3, 3] = 9 := by
  norm_num [loss, reps_to_intensity_dict, List.lookup]

theorem optimize_eval_ex :
    new_optimizer.optimize [3] [85] 6 85 = Except.ok [3, 3] := by
  have hgen : new_optimizer.generator.generate [3] 6 = [[3], [3, 3], [3, 3, 3]] := by
    decide
  have h1 : loss [3] [85] 6 85 [3, 3] < loss [3] [85] 6 85 [3] := by
    rw [loss_eval_3, loss_eval_33]; norm_num
  have h2 : ¬ loss [3] [85] 6 85 [3, 3, 3] < loss [3] [85] 6 85 [3, 3] := by
    rw [loss_eval_33, loss_eval_333]; norm_num
  have hmb : min_by (loss [3] [85] 6 85) [[3], [3, 3], [3, 3, 3]] = some [3, 3] := by
    show some (List.foldl
        (fun best c => if loss [3] [85] 6 85 c < loss [3] [85] 6 85 best then c else best)
        [3] [[3, 3], [3, 3, 3]]) = some [3, 3]
    rw [List.foldl_cons, if_pos h1, List.foldl_cons, if_neg h2, List.foldl_nil]
  unfold RepSchemeOptimizer.optimize
  rw [hgen, hmb]
  rfl

theorem call_eval_ex :
    new_optimizer.call [3] [85] 6 85 =
      (Except.ok [3, 3],
       ⟨⟨3, 1, 3⟩, [(([3], [85], 6, 85), [3, 3])]⟩) := by
  unfold RepSchemeOptimizer.call
  rw [show cache_lookup new_optimizer.cache ([3], [85], 6, 85) = none from rfl]
  rw [optimize_eval_ex]
  rfl

theorem cacheWF_new_optimizer : new_optimizer.cacheWF := by
  intro p hp
  exact absurd hp (List.not_mem_nil p)

/-- Witness for C2 at the concrete run above: the returned scheme `[3,3]`
has loss no larger than the generated candidate `[3]`. -/
theorem C2_witness :
    loss [3] [85] 6 85 [3, 3] ≤ loss [3] [85] 6 85 [3] :=
  C2_call_minimizes_loss new_optimizer cacheWF_new_optimizer [3] [85] 6 85
    (by simp) (by rfl) (by decide) (by norm_num) [3, 3]
    (congrArg Prod.fst call_eval_ex) [3] (by decide)

/-- Witness for C3 at the concrete run above. -/
theorem C3_witness :
    ([3, 3] : List Nat).Chain' (fun a b => b ≤ a) ∧
    ∃ c, c ∈ new_optimizer.generator.generate [3] 6 ∧
      c.Chain' (fun a b => a ≤ b) ∧ ([3, 3] : List Nat) = c.reverse :=
  C3_call_returns_descending new_optimizer cacheWF_new_optimizer [3] [85] 6 85
    [3, 3] (congrArg Prod.fst call_eval_ex)

/-- Witness for C6 at the concrete run above. -/
theorem C6_witness :
    ((new_optimizer.call [3] [85] 6 85).2.call [3] [85] 6 85).1 = Except.ok [3, 3] ∧
    ((new_optimizer.call [3] [85] 6 85).2.call [3] [85] 6 85).2 =
      (new_optimizer.call [3] [85] 6 85).2 ∧
    cache_lookup (new_optimizer.call [3] [85] 6 85).2.cache
      ([3], [85], 6, 85) = some [3, 3] :=
  C6_call_idempotent new_optimizer [3] [85] 6 85 (by simp) (by decide) (by norm_num)
    (by intro x hx; rw [List.mem_singleton.mp hx]; norm_num) [3, 3]
    (congrArg Prod.fst call_eval_ex)

/-! ### Claims about instance state -/

/-- C9 as stated is false: a `generate` call does not leave the
non-configuration fields of the generator unchanged — it stores the
sorted deduplicated domain in `self.sets` and the goal in
`self.reps_goal`, so the post-call instance differs from the pre-call
instance. -/
theorem C9_counterexample :
    (GenInstance.generateS ⟨3, 1, 3, none, none⟩ [2, 3, 4] 6).2 ≠
      (⟨3, 1, 3, none, none⟩ : GenInstance) := by
  decide

/-- C9 amended: `generate` calls are independent only in the sequential
sense: the candidates depend on nothing but the fixed configuration and
the call's own arguments (so any two instances with equal configuration
produce the same candidates), while the call mutates the instance by
storing `sorted(set(sets))` in `self.sets` and the goal in
`self.reps_goal`. -/
theorem C9_amended_sequential_independence (g₁ g₂ : GenInstance) (sets : List Nat)
    (reps_goal : Nat) (hconfig : g₁.config = g₂.config) :
    (g₁.generateS sets reps_goal).1 = (g₂.generateS sets reps_goal).1 ∧
    (g₁.generateS sets reps_goal).2 =
      { g₁ with sets := some (sorted_unique sets), reps_goal := some reps_goal } := by
  constructor
  · unfold GenInstance.generateS
    rw [hconfig]
  · rfl

/-- Witness for C9 (amended): two instances with equal configuration but
different stored attributes generate the same candidates, and the
post-state stores the sorted domain and the goal. -/
theorem C9_witness :
    ((⟨3, 1, 3, none, none⟩ : GenInstance).generateS [2, 3] 4).1 =
      ((⟨3, 1, 3, some [9], some 4⟩ : GenInstance).generateS [2, 3] 4).1 ∧
    ((⟨3, 1, 3, none, none⟩ : GenInstance).generateS [2, 3] 4).2 =
      { (⟨3, 1, 3, none, none⟩ : GenInstance) with
          sets := some (sorted_unique [2, 3]), reps_goal := some 4 } :=
  C9_amended_sequential_independence ⟨3, 1, 3, none, none⟩ ⟨3, 1, 3, some [9], some 4⟩
    [2, 3] 4 (by rfl)

/-! ### The default intensity model -/

/-- C10: the default intensity model `reps_to_intensity` with
`slope=-3.5`, `constant=97.5`, `quadratic=True` is strictly decreasing on
integer repetition counts 1 through 12. -/
theorem C10_default_intensity_strictly_decreasing (r : Nat) (h1 : 1 ≤ r) (h2 : r ≤ 11) :
    reps_to_intensity_default ((r : ℚ) + 1) < reps_to_intensity_default (r : ℚ) := by
  have hr : (r : ℚ) ≤ 11 := by exact_mod_cast h2
  unfold reps_to_intensity_default reps_to_intensity
  simp only [if_true]
  nlinarith [hr]

/-- Witness for C10 at `r = 5`: 5 reps map to a strictly higher intensity
than 6 reps. -/
theorem C10_witness :
    reps_to_intensity_default (((5 : Nat) : ℚ) + 1) <
      reps_to_intensity_default ((5 : Nat) : ℚ) :=
  C10_default_intensity_strictly_decreasing 5 (by decide) (by decide)

end Streprogen

